import Mathlib

/-!
# Verification of the TPCM announcement monitor (src/monitor.py)

Shallow embedding of the announcement-monitoring program: the normalized
announcement record, the identity-key derivation, the dedup ledger, the
`check_updates` poll-cycle state machine of `AnnouncementMonitor`, and the
three source adapters (`WeixinPaySource`, `TencentCloudSource`,
`YeepaySource`).

Python exceptions are modelled with `Except Unit`: an `.error ()` value marks
the exact program points where the Python code can raise.  Mutation of
`self.last_items` is modelled by threading a `Finset String` through the
cycle; since Python mutates the set in place, a cycle that raises partway
keeps the insertions made before the exception.  HTTP traffic is modelled by
an oracle value per `requests.get` call: either the call raises
(`HttpGet.netError`) or it returns a status code and an already-decoded body.
The webhook POST of `send_notification` is modelled by its response status
code; transport-level exceptions of that one POST are outside the model.
-/

namespace TPCM

/-- The canonical normalized announcement produced by an adapter's
`format_notification` (spec: NormalizedAnnouncement). -/
structure Item where
  source : String
  title  : String
  date   : String
  time   : String
  url    : String
deriving DecidableEq

/-- `item_key = f"{item['source']}_{item['title']}_{item['date']}"`
(monitor.py line 224). -/
def itemKey (it : Item) : String :=
  it.source ++ "_" ++ it.title ++ "_" ++ it.date

/-- Split a character list at every occurrence of `sep` (Python
`str.split(sep)` for a one-character separator: `"".split(sep) == [""]`). -/
def splitOnList (sep : Char) : List Char → List (List Char)
  | [] => [[]]
  | x :: xs =>
    match splitOnList sep xs with
    | [] => [[x]]
    | g :: gs => if x = sep then [] :: g :: gs else (x :: g) :: gs

/-- Python `str.split(sep)` for a one-character separator. -/
def splitOnChar (sep : Char) (s : String) : List String :=
  (splitOnList sep s.data).map (fun l => ⟨l⟩)

/-- Split a character list at every whitespace character, keeping empty
pieces (helper for `pySplit`). -/
def splitWsList : List Char → List (List Char)
  | [] => [[]]
  | x :: xs =>
    match splitWsList xs with
    | [] => [[x]]
    | g :: gs => if x.isWhitespace then [] :: g :: gs else (x :: g) :: gs

/-- Python `str.split()` with no separator: split on whitespace runs,
discarding empty pieces (so `"".split() == []`). -/
def pySplit (s : String) : List String :=
  ((splitWsList s.data).filter (· ≠ [])).map (fun l => ⟨l⟩)

/-- Python `str.strip()`: remove leading and trailing whitespace. -/
def pyStrip (s : String) : String :=
  ⟨((s.data.dropWhile Char.isWhitespace).reverse.dropWhile
      Char.isWhitespace).reverse⟩

/-- Decimal value of a digit list (helper for `strToNat?`). -/
def natOfDigits (l : List Char) : Nat :=
  l.foldl (fun n c => 10 * n + (c.toNat - 48)) 0

/-- Parse a nonempty all-digit string as a natural number. -/
def strToNat? (s : String) : Option Nat :=
  if s.data ≠ [] ∧ s.data.all Char.isDigit then some (natOfDigits s.data)
  else none

/-- A calendar date, as produced by `datetime.strptime(_, "%Y-%m-%d").date()`. -/
structure Date where
  year  : Nat
  month : Nat
  day   : Nat
deriving DecidableEq

/-- Gregorian leap-year rule, as used by Python's calendar validation. -/
def isLeap (y : Nat) : Bool :=
  (y % 4 == 0 && y % 100 != 0) || y % 400 == 0

/-- Number of days in a month, for `strptime`'s day-of-month validation. -/
def daysInMonth (y m : Nat) : Nat :=
  if m = 2 then (if isLeap y then 29 else 28)
  else if m = 4 ∨ m = 6 ∨ m = 9 ∨ m = 11 then 30
  else 31

/-- `datetime.strptime(s, "%Y-%m-%d")` (monitor.py line 223): three dash-
separated digit groups (`%Y` up to 4 digits, `%m`/`%d` up to 2), forming a
valid calendar date; `none` models the `ValueError` raised otherwise. -/
def parseDate (s : String) : Option Date :=
  match splitOnChar '-' s with
  | [ys, ms, ds] =>
    if ys.data.length ≤ 4 ∧ ms.data.length ≤ 2 ∧ ds.data.length ≤ 2 then
      match strToNat? ys, strToNat? ms, strToNat? ds with
      | some y, some m, some d =>
        if 1 ≤ m ∧ m ≤ 12 ∧ 1 ≤ d ∧ d ≤ daysInMonth y m then
          some ⟨y, m, d⟩
        else none
      | _, _, _ => none
    else none
  | _ => none

/-- `a <= b` on calendar dates (Python `date` comparison, lexicographic). -/
def Date.le (a b : Date) : Bool :=
  a.year < b.year ∨
    (a.year = b.year ∧
      (a.month < b.month ∨ (a.month = b.month ∧ a.day ≤ b.day)))

/-- The mutable state of `AnnouncementMonitor` (monitor.py lines 177-181):
`last_items` is the dedup ledger, `debug_time` the optional DEBUG cutoff
date, `is_first_run` the baseline flag. -/
structure MonitorState where
  last_items   : Finset String
  debug_time   : Option Date
  is_first_run : Bool

/-- The outcome of one adapter's `format_notification(raw_item)` call:
`.error ()` models the call raising. -/
abbrev FmtItem := Except Unit Item

/-- The outcome of one adapter's `get_announcements()` call inside a cycle:
`.error ()` models the fetch raising; otherwise the list of per-item
normalization outcomes for the raw items it returned. -/
abbrev SourceFetch := Except Unit (List FmtItem)

/-- The body of the inner per-item loop of `check_updates`
(monitor.py lines 223-239), for one already-normalized item: parse the date
(may raise), compute the key, then branch on DEBUG vs NORMAL mode and on
`is_first_run`.  Returns the updated ledger and the list of items passed to
`send_notification` (empty or a singleton). -/
def runItem (debug : Option Date) (first : Bool) (led : Finset String)
    (it : Item) : Except Unit (Finset String × List Item) :=
  match parseDate it.date with
  | none => .error ()
  | some d =>
    let key := itemKey it
    match debug with
    | some cutoff =>
      if Date.le cutoff d then
        if !first ∧ key ∉ led then .ok (insert key led, [it])
        else if first then .ok (insert key led, [])
        else .ok (led, [])
      else .ok (led, [])
    | none =>
      if key ∉ led then
        .ok (insert key led, if first then [] else [it])
      else .ok (led, [])

/-- The inner loop `for raw_item in items` of `check_updates`
(monitor.py lines 221-239): normalize each raw item (the normalization may
raise) and process it; the Boolean records whether an exception escaped,
aborting the remainder of the list while keeping earlier ledger insertions
and notifications. -/
def runItems (debug : Option Date) (first : Bool) :
    Finset String → List FmtItem → Finset String × List Item × Bool
  | led, [] => (led, [], false)
  | led, fi :: rest =>
    match fi with
    | .error _ => (led, [], true)
    | .ok it =>
      match runItem debug first led it with
      | .error _ => (led, [], true)
      | .ok (led', ns) =>
        let r := runItems debug first led' rest
        (r.1, ns ++ r.2.1, r.2.2)

/-- The outer loop `for source in self.sources` of `check_updates`
(monitor.py lines 216-239): each source's fetch may raise, and any exception
aborts the remaining sources of the cycle (the whole loop sits inside one
`try`). -/
def runSources (debug : Option Date) (first : Bool) :
    Finset String → List SourceFetch → Finset String × List Item × Bool
  | led, [] => (led, [], false)
  | led, sf :: rest =>
    match sf with
    | .error _ => (led, [], true)
    | .ok items =>
      let r := runItems debug first led items
      if r.2.2 then (r.1, r.2.1, true)
      else
        let r' := runSources debug first r.1 rest
        (r'.1, r.2.1 ++ r'.2.1, r'.2.2)

/-- `AnnouncementMonitor.check_updates` (monitor.py lines 212-246): run all
sources under the top-level `try`; if an exception was caught the
`is_first_run` flag is left unchanged (the transition at lines 241-243 is
skipped), otherwise a first run transitions to steady state.  Returns the new
monitor state, the items passed to `send_notification` in order, and whether
the cycle's top-level `except` fired. -/
def check_updates (st : MonitorState) (fetches : List SourceFetch) :
    MonitorState × List Item × Bool :=
  let r := runSources st.debug_time st.is_first_run st.last_items fetches
  if r.2.2 then ({ st with last_items := r.1 }, r.2.1, true)
  else ({ st with last_items := r.1, is_first_run := false }, r.2.1, false)

/-- The poll loop of `AnnouncementMonitor.run` (monitor.py lines 269-271),
iterated over a finite schedule of cycle inputs: `check_updates` is called
once per cycle and never propagates an exception, so the loop always reaches
the next cycle.  Records, per cycle, the notified items and the
caught-exception flag. -/
def runCycles : MonitorState → List (List SourceFetch) →
    MonitorState × List (List Item × Bool)
  | st, [] => (st, [])
  | st, c :: cs =>
    let r := check_updates st c
    let r' := runCycles r.1 cs
    (r'.1, (r.2.1, r.2.2) :: r'.2)

/-- A source fetch in which `get_announcements` returned `items` and every
normalization succeeds: the common non-exceptional case. -/
def pureFetch (items : List Item) : SourceFetch :=
  .ok (items.map .ok)

/-- The outcome of one `requests.get` call: either the call itself raised
(network failure, timeout, …) or it returned a response with a status code
and a body, given here already decoded into the shape the adapter reads. -/
inductive HttpGet (β : Type) where
  | netError
  | response (status : Nat) (body : β)

/-- One record of the `contentlist` returned by the WeixinPay CMS endpoint;
each JSON field may be absent. -/
structure WxItem where
  contentTitle       : Option String
  contentPublishTime : Option Int
  contentId          : Option String
deriving DecidableEq

/-- The decoded body of one WeixinPay response: `none` models a body on which
`response.json()` raises; otherwise the value of `data.get('errorcode')` and,
when present, of `data['data']['contentlist']`. -/
abbrev WxBody := Option (Option Int × Option (List WxItem))

/-- The handling of one WeixinPay sub-response (monitor.py lines 62-70):
only a 200 status is looked at; `.json()` may raise; with `errorcode == 0`
the items of `data['data']['contentlist']` are taken (a missing `data` or
`contentlist` raises `KeyError`); any other errorcode contributes nothing. -/
def wxHandle (status : Nat) (body : WxBody) : Except Unit (List WxItem) :=
  if status = 200 then
    match body with
    | none => .error ()
    | some (ec, cl) =>
      if ec = some 0 then
        match cl with
        | none => .error ()
        | some l => .ok l
      else .ok []
  else .ok []

/-- `WeixinPaySource.get_announcements` (monitor.py lines 37-72): two
`requests.get` calls (normal then pinned listing) with NO surrounding
`try/except`, then the two bodies are decoded and concatenated.  Any raise —
a network error in either GET, a malformed 200 body, a missing
`data.contentlist` under `errorcode == 0` — propagates to the caller. -/
def weixinGet (r1 r2 : HttpGet WxBody) : Except Unit (List WxItem) :=
  match r1, r2 with
  | .netError, _ => .error ()
  | _, .netError => .error ()
  | .response s1 b1, .response s2 b2 =>
    match wxHandle s1 b1 with
    | .error _ => .error ()
    | .ok l1 =>
      match wxHandle s2 b2 with
      | .error _ => .error ()
      | .ok l2 => .ok (l1 ++ l2)

/-- An `<a>` element selected from a provider's listing page: its text and
its `href` attribute when present (`link['href']` raises `KeyError` when the
attribute is absent). -/
structure HtmlLink where
  text : String
  href : Option String
deriving DecidableEq

/-- One announcement row selected from an HTML listing: the result of the two
`select_one` calls — the detail link and the text of the published-time
element, each `none` when the selector matched nothing. -/
structure HtmlRow where
  link     : Option HtmlLink
  timeText : Option String
deriving DecidableEq

/-- The raw item built by `TencentCloudSource.get_announcements` for one row
(monitor.py lines 105-109). -/
structure TcItem where
  title      : String
  announceId : String
  beginTime  : String
deriving DecidableEq

/-- Python `"...".split('/')[-1]`: `str.split('/')` never returns an empty
list, so `[-1]` is the last piece. -/
def lastSlashPiece (s : String) : String :=
  (splitOnChar '/' s).getLastD ""

/-- `TencentCloudSource.get_announcements` (monitor.py lines 89-118): the
whole body sits in a `try/except` returning `[]`, so a network error or a
non-200 status yields `[]`; each row is handled in an inner `try/except
continue`, so a row whose link misses the `href` attribute (a `KeyError`) is
skipped and the remaining rows are still processed. -/
def tencentGet (r : HttpGet (List HtmlRow)) : List TcItem :=
  match r with
  | .netError => []
  | .response s rows =>
    if s ≠ 200 then []
    else
      rows.filterMap fun row =>
        match row.link, row.timeText with
        | some l, some t =>
          match l.href with
          | none => none
          | some h => some ⟨pyStrip l.text, lastSlashPiece h, pyStrip t⟩
        | _, _ => none

/-- `TencentCloudSource.format_notification` (monitor.py lines 120-128):
`date_time = item['beginTime'].split()`; `date_time[0]` raises `IndexError`
when the split is empty; the time component is `date_time[1]` when present
and `""` otherwise. -/
def tencentFormat (item : TcItem) : Except Unit Item :=
  match pySplit item.beginTime with
  | [] => .error ()
  | d :: rest =>
    .ok { title := item.title
          date := d
          time := rest.headD ""
          url := "https://cloud.tencent.com/announce/detail/" ++ item.announceId
          source := "腾讯云" }

/-- The raw item built by `YeepaySource.get_announcements` for one table row
(monitor.py lines 151-155). -/
structure YpItem where
  title    : String
  noticeId : String
  pubTime  : String
deriving DecidableEq

/-- `YeepaySource.get_announcements` (monitor.py lines 135-164): same
structure as the TencentCloud adapter — outer `try/except` returning `[]`,
non-200 yields `[]`, rows missing link/time cell or the `href` attribute are
skipped individually. -/
def yeepayGet (r : HttpGet (List HtmlRow)) : List YpItem :=
  match r with
  | .netError => []
  | .response s rows =>
    if s ≠ 200 then []
    else
      rows.filterMap fun row =>
        match row.link, row.timeText with
        | some l, some t =>
          match l.href with
          | none => none
          | some h => some ⟨pyStrip l.text, lastSlashPiece h, pyStrip t⟩
        | _, _ => none

/-- `YeepaySource.format_notification` (monitor.py lines 166-174): identical
shape to the TencentCloud formatter, with the Yeepay detail URL and source
name. -/
def yeepayFormat (item : YpItem) : Except Unit Item :=
  match pySplit item.pubTime with
  | [] => .error ()
  | d :: rest =>
    .ok { title := item.title
          date := d
          time := rest.headD ""
          url := "https://www.yeepay.com/notice-detail/" ++ item.noticeId
          source := "易宝支付" }

/-- `AnnouncementMonitor.send_notification` (monitor.py lines 191-210),
modelled by the webhook's response: it performs exactly one `requests.post`
(first component: number of POST attempts — there is no retry), and on a
response status other than 200 it only prints a failure line (second
component: the log lines) and returns; no exception is raised on any status. -/
def send_notification (status : Nat) (respText : String) : Nat × List String :=
  (1, if status ≠ 200 then ["发送通知失败: " ++ respText] else [])

/-! ### Helper lemmas about one item step -/

/-- In NORMAL mode an item whose key is already in the ledger is a no-op,
whatever the `is_first_run` flag. -/
theorem runItem_seen_normal (f : Bool) (led : Finset String) (it : Item)
    (hd : (parseDate it.date).isSome) (hk : itemKey it ∈ led) :
    runItem none f led it = .ok (led, []) := by
  obtain ⟨d, hd⟩ := Option.isSome_iff_exists.mp hd
  simp [runItem, hd, hk]

/-- In NORMAL mode, steady state, a new key is notified and added. -/
theorem runItem_new_normal (led : Finset String) (it : Item) (d : Date)
    (hd : parseDate it.date = some d) (hk : itemKey it ∉ led) :
    runItem none false led it = .ok (insert (itemKey it) led, [it]) := by
  simp [runItem, hd, hk]

/-- In NORMAL mode, first run, any item is silently added (for an
already-present key `insert` leaves the ledger unchanged). -/
theorem runItem_first_normal (led : Finset String) (it : Item) (d : Date)
    (hd : parseDate it.date = some d) :
    runItem none true led it = .ok (insert (itemKey it) led, []) := by
  by_cases hk : itemKey it ∈ led
  · simp [runItem, hd, hk, Finset.insert_eq_self.mpr hk]
  · simp [runItem, hd, hk]

/-- In the first run no branch of the per-item step notifies. -/
theorem runItem_first_no_notify (dbg : Option Date) (led : Finset String)
    (it : Item) (p : Finset String × List Item)
    (h : runItem dbg true led it = .ok p) : p.2 = [] := by
  unfold runItem at h
  cases hpd : parseDate it.date with
  | none => rw [hpd] at h; exact absurd h (by simp)
  | some d =>
    rw [hpd] at h
    cases dbg with
    | none =>
      by_cases hk : itemKey it ∈ led <;> simp [hk] at h <;> simp [← h]
    | some c =>
      by_cases hle : Date.le c d = true
      · simp [hle] at h; simp [← h]
      · simp [hle] at h; simp [← h]

/-- In DEBUG mode every notified item carries a parsed date on or after the
cutoff. -/
theorem runItem_debug_notify_ge (c : Date) (f : Bool) (led : Finset String)
    (it : Item) (p : Finset String × List Item)
    (h : runItem (some c) f led it = .ok p) (y : Item) (hy : y ∈ p.2) :
    ∃ d, parseDate y.date = some d ∧ Date.le c d = true := by
  unfold runItem at h
  cases hpd : parseDate it.date with
  | none => rw [hpd] at h; exact absurd h (by simp)
  | some d =>
    rw [hpd] at h
    by_cases hle : Date.le c d = true
    · simp only [hle, if_true] at h
      by_cases hb : ((!f) = true) ∧ itemKey it ∉ led
      · rw [if_pos hb] at h
        obtain rfl : p = (insert (itemKey it) led, [it]) := by
          injection h with h; exact h.symm
        obtain rfl : y = it := by simpa using hy
        exact ⟨d, hpd, hle⟩
      · rw [if_neg hb] at h
        by_cases hf : f = true
        · simp [hf] at h
          obtain rfl : p = (insert (itemKey it) led, []) := h.symm
          simp at hy
        · simp [hf] at h
          obtain rfl : p = (led, []) := h.symm
          simp at hy
    · simp only [hle, if_false] at h
      obtain rfl : p = (led, []) := by
        injection h with h; exact h.symm
      simp at hy

/-! ### Helper lemmas about item lists and source lists -/

/-- A prefix of already-seen, date-parsable items is a complete no-op in
NORMAL mode. -/
theorem runItems_seen_prefix (f : Bool) (led : Finset String) (a : List Item)
    (b : List FmtItem)
    (h : ∀ y ∈ a, itemKey y ∈ led ∧ (parseDate y.date).isSome) :
    runItems none f led (a.map .ok ++ b) = runItems none f led b := by
  induction a with
  | nil => simp
  | cons y a ih =>
    obtain ⟨hk, hd⟩ := h y (by simp)
    simp only [List.map_cons, List.cons_append, runItems,
      runItem_seen_normal f led y hd hk, List.append_eq]
    rw [ih (fun z hz => h z (by simp [hz]))]
    simp

/-- A list of already-seen, date-parsable items is a complete no-op in
NORMAL mode. -/
theorem runItems_seen (f : Bool) (led : Finset String) (a : List Item)
    (h : ∀ y ∈ a, itemKey y ∈ led ∧ (parseDate y.date).isSome) :
    runItems none f led (a.map .ok) = (led, [], false) := by
  have := runItems_seen_prefix f led a [] h
  simpa [runItems] using this

/-- Sources all of whose items are seen and date-parsable are a complete
no-op in NORMAL mode. -/
theorem runSources_seen_prefix (f : Bool) (led : Finset String)
    (ss : List (List Item)) (rest : List SourceFetch)
    (h : ∀ l ∈ ss, ∀ y ∈ l, itemKey y ∈ led ∧ (parseDate y.date).isSome) :
    runSources none f led (ss.map pureFetch ++ rest) =
      runSources none f led rest := by
  induction ss with
  | nil => simp
  | cons l ss ih =>
    simp only [List.map_cons, List.cons_append, runSources, pureFetch]
    rw [runItems_seen f led l (h l (by simp))]
    simpa using ih (fun l' hl' => h l' (by simp [hl']))

/-- Closed form of the previous lemma. -/
theorem runSources_seen (f : Bool) (led : Finset String)
    (ss : List (List Item))
    (h : ∀ l ∈ ss, ∀ y ∈ l, itemKey y ∈ led ∧ (parseDate y.date).isSome) :
    runSources none f led (ss.map pureFetch) = (led, [], false) := by
  have := runSources_seen_prefix f led ss [] h
  simpa [runSources] using this

/-- The ledger after silently baselining a list of items: fold `insert` of
each key over the list. -/
def keysFold (led : Finset String) (its : List Item) : Finset String :=
  its.foldl (fun s it => insert (itemKey it) s) led

/-- First run, NORMAL mode: every item of the list is silently added. -/
theorem runItems_first_normal (led : Finset String) (its : List Item)
    (h : ∀ y ∈ its, (parseDate y.date).isSome) :
    runItems none true led (its.map .ok) = (keysFold led its, [], false) := by
  induction its generalizing led with
  | nil => simp [runItems, keysFold]
  | cons y its ih =>
    obtain ⟨d, hd⟩ := Option.isSome_iff_exists.mp (h y (by simp))
    simp only [List.map_cons, runItems, runItem_first_normal led y d hd]
    rw [ih (insert (itemKey y) led) (fun z hz => h z (by simp [hz]))]
    simp [keysFold]

/-- First run, NORMAL mode, at the source level: the whole cycle silently
baselines the concatenation of all sources' items. -/
theorem runSources_first_normal (led : Finset String) (ss : List (List Item))
    (h : ∀ y ∈ ss.flatten, (parseDate y.date).isSome) :
    runSources none true led (ss.map pureFetch) =
      (keysFold led ss.flatten, [], false) := by
  induction ss generalizing led with
  | nil => simp [runSources, keysFold]
  | cons l ss ih =>
    simp only [List.map_cons, runSources, pureFetch]
    rw [runItems_first_normal led l (fun z hz => h z (by simp [hz]))]
    simp only
    rw [ih (keysFold led l) (fun z hz => h z (by simp [hz]))]
    simp [keysFold, List.foldl_append]

/-- Cardinality of the baselined ledger: fresh distinct keys each add one. -/
theorem card_keysFold (led : Finset String) (its : List Item)
    (hnd : (its.map itemKey).Nodup) (hnew : ∀ y ∈ its, itemKey y ∉ led) :
    (keysFold led its).card = led.card + its.length := by
  induction its generalizing led with
  | nil => simp [keysFold]
  | cons y its ih =>
    have hy : itemKey y ∉ led := hnew y (by simp)
    have hnd' : (its.map itemKey).Nodup := (List.nodup_cons.mp hnd).2
    have hyits : itemKey y ∉ its.map itemKey := (List.nodup_cons.mp hnd).1
    have hnew' : ∀ z ∈ its, itemKey z ∉ insert (itemKey y) led := by
      intro z hz
      rw [Finset.mem_insert]
      rintro (heq | hmem)
      · exact hyits (heq ▸ List.mem_map_of_mem itemKey hz)
      · exact hnew z (by simp [hz]) hmem
    have : keysFold led (y :: its) = keysFold (insert (itemKey y) led) its := by
      simp [keysFold]
    rw [this, ih (insert (itemKey y) led) hnd' hnew',
      Finset.card_insert_of_not_mem hy]
    simp [Nat.add_assoc, Nat.add_comm 1 its.length]

/-! ### First-run and DEBUG-mode invariants -/

/-- In the first run the item loop never notifies, in either mode, even when
an exception aborts it partway. -/
theorem runItems_first_no_notify (dbg : Option Date) (led : Finset String)
    (its : List FmtItem) : (runItems dbg true led its).2.1 = [] := by
  induction its generalizing led with
  | nil => simp [runItems]
  | cons fi its ih =>
    cases fi with
    | error e => simp [runItems]
    | ok it =>
      simp only [runItems]
      cases h : runItem dbg true led it with
      | error e => simp
      | ok p =>
        obtain ⟨led', ns⟩ := p
        have : ns = [] := runItem_first_no_notify dbg led it _ h
        subst this
        simpa using ih led'

/-- In the first run the whole cycle never notifies, even when an exception
aborts it partway. -/
theorem runSources_first_no_notify (dbg : Option Date) (led : Finset String)
    (fs : List SourceFetch) : (runSources dbg true led fs).2.1 = [] := by
  induction fs generalizing led with
  | nil => simp [runSources]
  | cons sf fs ih =>
    cases sf with
    | error e => simp [runSources]
    | ok items =>
      simp only [runSources]
      by_cases he : (runItems dbg true led items).2.2
      · simp [he, runItems_first_no_notify]
      · simp [he, runItems_first_no_notify, ih]

/-- In DEBUG mode every item the item loop notifies has a parsed date on or
after the cutoff. -/
theorem runItems_debug_notify_ge (c : Date) (f : Bool) (led : Finset String)
    (its : List FmtItem) (y : Item)
    (hy : y ∈ (runItems (some c) f led its).2.1) :
    ∃ d, parseDate y.date = some d ∧ Date.le c d = true := by
  induction its generalizing led with
  | nil => simp [runItems] at hy
  | cons fi its ih =>
    cases fi with
    | error e => simp [runItems] at hy
    | ok it =>
      simp only [runItems] at hy
      cases h : runItem (some c) f led it with
      | error e => rw [h] at hy; simp at hy
      | ok p =>
        rw [h] at hy
        simp only [List.mem_append] at hy
        rcases hy with hy | hy
        · exact runItem_debug_notify_ge c f led it p h y hy
        · exact ih p.1 hy

/-- In DEBUG mode every item the cycle notifies has a parsed date on or
after the cutoff. -/
theorem runSources_debug_notify_ge (c : Date) (f : Bool) (led : Finset String)
    (fs : List SourceFetch) (y : Item)
    (hy : y ∈ (runSources (some c) f led fs).2.1) :
    ∃ d, parseDate y.date = some d ∧ Date.le c d = true := by
  induction fs generalizing led with
  | nil => simp [runSources] at hy
  | cons sf fs ih =>
    cases sf with
    | error e => simp [runSources] at hy
    | ok items =>
      simp only [runSources] at hy
      by_cases he : (runItems (some c) f led items).2.2
      · simp only [he, if_true] at hy
        exact runItems_debug_notify_ge c f led items y hy
      · simp only [he, Bool.false_eq_true, if_false, List.append_eq,
          List.mem_append] at hy
        rcases hy with hy | hy
        · exact runItems_debug_notify_ge c f led items y hy
        · exact ih (runItems (some c) f led items).1 hy

/-! ### Helper lemmas about `check_updates` and `runCycles` -/

/-- Unfolding `check_updates` on a cycle that raised no exception. -/
theorem check_updates_ok (st : MonitorState) (fs : List SourceFetch)
    (led' : Finset String) (ns : List Item)
    (h : runSources st.debug_time st.is_first_run st.last_items fs =
      (led', ns, false)) :
    check_updates st fs =
      ({ st with last_items := led', is_first_run := false }, ns, false) := by
  simp [check_updates, h]

/-- Unfolding `check_updates` on a cycle whose top-level `except` fired. -/
theorem check_updates_errored (st : MonitorState) (fs : List SourceFetch)
    (led' : Finset String) (ns : List Item)
    (h : runSources st.debug_time st.is_first_run st.last_items fs =
      (led', ns, true)) :
    check_updates st fs = ({ st with last_items := led' }, ns, true) := by
  simp [check_updates, h]

/-- `check_updates` never changes the configured debug cutoff. -/
theorem check_updates_debug_time (st : MonitorState) (fs : List SourceFetch) :
    (check_updates st fs).1.debug_time = st.debug_time := by
  by_cases he : (runSources st.debug_time st.is_first_run st.last_items fs).2.2 <;>
    simp [check_updates, he]

/-- In DEBUG mode every item a `check_updates` cycle notifies has a parsed
date on or after the cutoff. -/
theorem check_updates_debug_notify_ge (c : Date) (st : MonitorState)
    (fs : List SourceFetch) (hdbg : st.debug_time = some c) (y : Item)
    (hy : y ∈ (check_updates st fs).2.1) :
    ∃ d, parseDate y.date = some d ∧ Date.le c d = true := by
  unfold check_updates at hy
  rw [hdbg] at hy
  by_cases he :
      (runSources (some c) st.is_first_run st.last_items fs).2.2 <;>
    simp only [he, if_true, if_false] at hy <;>
    exact runSources_debug_notify_ge c st.is_first_run st.last_items fs y hy

/-- In DEBUG mode, across any sequence of cycles, every notified item has a
parsed date on or after the cutoff. -/
theorem runCycles_debug_notify_ge (c : Date) :
    ∀ (cs : List (List SourceFetch)) (st : MonitorState),
      st.debug_time = some c →
      ∀ p ∈ (runCycles st cs).2, ∀ y ∈ p.1,
        ∃ d, parseDate y.date = some d ∧ Date.le c d = true := by
  intro cs
  induction cs with
  | nil => intro st _ p hp; simp [runCycles] at hp
  | cons f cs ih =>
    intro st hdbg p hp y hy
    simp only [runCycles, List.mem_cons] at hp
    rcases hp with rfl | hp
    · exact check_updates_debug_notify_ge c st f hdbg y hy
    · have hdbg' : (check_updates st f).1.debug_time = some c := by
        rw [check_updates_debug_time, hdbg]
      exact ih (check_updates st f).1 hdbg' p hp y hy

/-- A first-run cycle never notifies, and the state transition to steady
state happens exactly when no exception was caught. -/
theorem check_updates_first (st : MonitorState) (fs : List SourceFetch)
    (h : st.is_first_run = true) :
    (check_updates st fs).2.1 = [] ∧
      (check_updates st fs).1.is_first_run = (check_updates st fs).2.2 := by
  unfold check_updates
  rw [h]
  by_cases he : (runSources st.debug_time true st.last_items fs).2.2 <;>
    simp [he, runSources_first_no_notify, h]

/-- If a prefix of sources is processed without incident and the next
source's fetch raises, the cycle keeps the prefix's ledger insertions and
notifications, skips everything after the failing source, and reports the
caught exception. -/
theorem runSources_prefix_then_error (dbg : Option Date) (f : Bool)
    (led led' : Finset String) (ns : List Item) (fp rest : List SourceFetch)
    (h : runSources dbg f led fp = (led', ns, false)) :
    runSources dbg f led (fp ++ .error () :: rest) = (led', ns, true) := by
  induction fp generalizing led ns with
  | nil =>
    simp only [runSources] at h
    obtain ⟨rfl, rfl, -⟩ : led = led' ∧ [] = ns ∧ True := by
      injection h with h1 h2
      injection h2 with h2 h3
      exact ⟨h1, h2, trivial⟩
    simp [runSources]
  | cons sf fp ih =>
    cases sf with
    | error e => simp [runSources] at h
    | ok items =>
      simp only [List.cons_append, runSources, List.append_eq] at h ⊢
      by_cases he : (runItems dbg f led items).2.2
      · rw [if_pos he] at h
        injection h with h1 h2
        injection h2 with h2 h3
        simp at h3
      · rw [if_neg he] at h ⊢
        obtain ⟨ns', hns, h'⟩ :
            ∃ ns', runSources dbg f (runItems dbg f led items).1 fp =
              (led', ns', false) ∧ ns = (runItems dbg f led items).2.1 ++ ns' := by
          refine ⟨(runSources dbg f (runItems dbg f led items).1 fp).2.1, ?_, ?_⟩
          · injection h with h1 h2
            injection h2 with h2 h3
            exact Prod.ext h1 (Prod.ext rfl h3)
          · injection h with h1 h2
            injection h2 with h2 h3
            exact h2.symm
        rw [ih _ _ hns, h']

/-- If a prefix of an adapter's items is processed without incident and the
normalization of the next item raises, the item loop keeps the prefix's
ledger insertions and notifications, skips the remaining items, and reports
the exception. -/
theorem runItems_prefix_then_error (dbg : Option Date) (f : Bool)
    (led led2 : Finset String) (ns2 : List Item) (a more : List FmtItem)
    (h : runItems dbg f led a = (led2, ns2, false)) :
    runItems dbg f led (a ++ .error () :: more) = (led2, ns2, true) := by
  induction a generalizing led ns2 with
  | nil =>
    simp only [runItems] at h
    obtain ⟨rfl, rfl, -⟩ : led = led2 ∧ [] = ns2 ∧ True := by
      injection h with h1 h2
      injection h2 with h2 h3
      exact ⟨h1, h2, trivial⟩
    simp [runItems]
  | cons fi a ih =>
    cases fi with
    | error e => simp [runItems] at h
    | ok it =>
      simp only [List.cons_append, runItems, List.append_eq] at h ⊢
      cases hri : runItem dbg f led it with
      | error e => rw [hri] at h; simp at h
      | ok p =>
        rw [hri] at h
        obtain ⟨led', ns⟩ := p
        dsimp only at h ⊢
        obtain ⟨ns', hns, h'⟩ :
            ∃ ns', runItems dbg f led' a = (led2, ns', false) ∧
              ns2 = ns ++ ns' := by
          refine ⟨(runItems dbg f led' a).2.1, ?_, ?_⟩
          · injection h with h1 h2
            injection h2 with h2 h3
            exact Prod.ext h1 (Prod.ext rfl h3)
          · injection h with h1 h2
            injection h2 with h2 h3
            exact h2.symm
        rw [ih _ _ hns, h']

/-- Splitting a cycle after an error-free prefix of sources: the remainder
runs from the prefix's ledger, and the prefix's notifications come first. -/
theorem runSources_append_of_ok (dbg : Option Date) (f : Bool)
    (led led1 : Finset String) (ns1 : List Item)
    (fp more : List SourceFetch)
    (h : runSources dbg f led fp = (led1, ns1, false)) :
    runSources dbg f led (fp ++ more) =
      ((runSources dbg f led1 more).1,
        ns1 ++ (runSources dbg f led1 more).2.1,
        (runSources dbg f led1 more).2.2) := by
  induction fp generalizing led ns1 with
  | nil =>
    simp only [runSources] at h
    obtain ⟨rfl, rfl, -⟩ : led = led1 ∧ [] = ns1 ∧ True := by
      injection h with h1 h2
      injection h2 with h2 h3
      exact ⟨h1, h2, trivial⟩
    simp
  | cons sf fp ih =>
    cases sf with
    | error e => simp [runSources] at h
    | ok items =>
      simp only [List.cons_append, runSources, List.append_eq] at h ⊢
      by_cases he : (runItems dbg f led items).2.2
      · rw [if_pos he] at h
        injection h with h1 h2
        injection h2 with h2 h3
        simp at h3
      · rw [if_neg he] at h ⊢
        obtain ⟨ns', hns, h'⟩ :
            ∃ ns', runSources dbg f (runItems dbg f led items).1 fp =
              (led1, ns', false) ∧
              ns1 = (runItems dbg f led items).2.1 ++ ns' := by
          refine ⟨(runSources dbg f (runItems dbg f led items).1 fp).2.1,
            ?_, ?_⟩
          · injection h with h1 h2
            injection h2 with h2 h3
            exact Prod.ext h1 (Prod.ext rfl h3)
          · injection h with h1 h2
            injection h2 with h2 h3
            exact h2.symm
        rw [ih _ _ hns, h']
        simp [List.append_assoc]

/-- While every cycle keeps hitting the top-level exception handler, the
monitor stays in its first run and never notifies. -/
theorem runCycles_first_all_errored :
    ∀ (cs : List (List SourceFetch)) (st : MonitorState),
      st.is_first_run = true →
      (∀ p ∈ (runCycles st cs).2, p.2 = true) →
      (runCycles st cs).1.is_first_run = true ∧
        ∀ p ∈ (runCycles st cs).2, p.1 = [] := by
  intro cs
  induction cs with
  | nil => intro st h _; simpa [runCycles] using h
  | cons f cs ih =>
    intro st h herr
    have h0 := check_updates_first st f h
    have herr0 : (check_updates st f).2.2 = true := by
      have := herr ((check_updates st f).2.1, (check_updates st f).2.2)
        (by simp [runCycles])
      simpa using this
    have h1 : (check_updates st f).1.is_first_run = true := by
      rw [h0.2, herr0]
    have herr' : ∀ p ∈ (runCycles (check_updates st f).1 cs).2, p.2 = true := by
      intro p hp
      exact herr p (by simp [runCycles, hp])
    obtain ⟨hfr, hns⟩ := ih (check_updates st f).1 h1 herr'
    refine ⟨by simpa [runCycles] using hfr, ?_⟩
    intro p hp
    simp only [runCycles, List.mem_cons] at hp
    rcases hp with rfl | hp
    · exact h0.1
    · exact hns p hp

/-- DEBUG mode: an item dated strictly before the cutoff is skipped
entirely. -/
theorem runItem_debug_before (c : Date) (f : Bool) (led : Finset String)
    (it : Item) (d : Date) (hd : parseDate it.date = some d)
    (hlt : Date.le c d = false) :
    runItem (some c) f led it = .ok (led, []) := by
  simp [runItem, hd, hlt]

/-- DEBUG mode, steady state: an on-or-after-cutoff item with a new key is
notified and added. -/
theorem runItem_debug_new (c : Date) (led : Finset String) (it : Item)
    (d : Date) (hd : parseDate it.date = some d)
    (hge : Date.le c d = true) (hk : itemKey it ∉ led) :
    runItem (some c) false led it = .ok (insert (itemKey it) led, [it]) := by
  simp [runItem, hd, hge, hk]

/-- DEBUG mode, steady state: an on-or-after-cutoff item whose key is
already in the ledger is a no-op. -/
theorem runItem_debug_seen (c : Date) (led : Finset String) (it : Item)
    (d : Date) (hd : parseDate it.date = some d)
    (hge : Date.le c d = true) (hk : itemKey it ∈ led) :
    runItem (some c) false led it = .ok (led, []) := by
  simp [runItem, hd, hge, hk]

/-! ### Claims -/

/-- C1, counterexample: with a steady-state monitor, when the FIRST
adapter's fetch raises, a new announcement served by the SECOND adapter in
the same cycle is neither notified nor even recorded — contradicting the
claim that every other registered adapter in the same cycle is still fetched
and its items still evaluated. -/
theorem C1_counterexample :
    (check_updates ⟨{}, none, false⟩
        [.error (), pureFetch [⟨"s", "t", "2025-01-02", "", "u"⟩]]).2.1 = [] ∧
      (check_updates ⟨{}, none, false⟩
        [.error (), pureFetch [⟨"s", "t", "2025-01-02", "", "u"⟩]]).1.last_items
        = {} := by
  constructor <;> decide

/-- C1 (amended): when one adapter's `get_announcements` raises, or the
normalization of one of its items raises, the error is caught and logged at
the cycle level and the poll loop continues (`check_updates` returns rather
than propagating); everything processed BEFORE the raise — earlier adapters
entirely and, in the normalization case, the failing adapter's earlier items
— keeps its ledger insertions and notifications for that cycle, but the
rest of the failing adapter's items and every adapter after it are skipped
for the rest of the cycle. -/
theorem C1_amended (st : MonitorState) (fp rest : List SourceFetch)
    (led1 : Finset String) (ns1 : List Item)
    (h : runSources st.debug_time st.is_first_run st.last_items fp =
      (led1, ns1, false)) :
    check_updates st (fp ++ .error () :: rest) =
        ({ st with last_items := led1 }, ns1, true) ∧
      ∀ (a more : List FmtItem) (led2 : Finset String) (ns2 : List Item),
        runItems st.debug_time st.is_first_run led1 a = (led2, ns2, false) →
        check_updates st (fp ++ .ok (a ++ .error () :: more) :: rest) =
          ({ st with last_items := led2 }, ns1 ++ ns2, true) := by
  constructor
  · exact check_updates_errored st _ led1 ns1
      (runSources_prefix_then_error st.debug_time st.is_first_run
        st.last_items led1 ns1 fp rest h)
  · intro a more led2 ns2 h2
    have hit : runItems st.debug_time st.is_first_run led1
        (a ++ .error () :: more) = (led2, ns2, true) :=
      runItems_prefix_then_error st.debug_time st.is_first_run led1 led2 ns2
        a more h2
    have hsrc : runSources st.debug_time st.is_first_run led1
        (.ok (a ++ .error () :: more) :: rest) = (led2, ns2, true) := by
      simp [runSources, hit]
    have happ := runSources_append_of_ok st.debug_time st.is_first_run
      st.last_items led1 ns1 fp (.ok (a ++ .error () :: more) :: rest) h
    rw [hsrc] at happ
    exact check_updates_errored st _ led2 (ns1 ++ ns2) happ

/-- Witness for C1 (amended), both failure shapes: a healthy adapter before
the failure keeps its notification and the cycle reports a caught error;
and when the second adapter's first item normalizes fine but its next
normalization raises, that first item is still notified and recorded while
the third adapter is skipped. -/
theorem C1_witness :
    check_updates ⟨{}, none, false⟩
        ([pureFetch [⟨"s", "t", "2025-01-02", "", "u"⟩]] ++
          .error () :: [pureFetch [⟨"a", "b", "2025-01-03", "", "v"⟩]]) =
        (⟨{"s_t_2025-01-02"}, none, false⟩,
          [⟨"s", "t", "2025-01-02", "", "u"⟩], true) ∧
      check_updates ⟨{}, none, false⟩
        ([pureFetch [⟨"s", "t", "2025-01-02", "", "u"⟩]] ++
          .ok ([.ok ⟨"a", "b", "2025-01-03", "", "v"⟩] ++ .error () :: []) ::
            [pureFetch [⟨"c", "d", "2025-01-04", "", "w"⟩]]) =
        (⟨{"a_b_2025-01-03", "s_t_2025-01-02"}, none, false⟩,
          [⟨"s", "t", "2025-01-02", "", "u"⟩] ++
            [⟨"a", "b", "2025-01-03", "", "v"⟩], true) :=
  ⟨(C1_amended ⟨{}, none, false⟩
      [pureFetch [⟨"s", "t", "2025-01-02", "", "u"⟩]]
      [pureFetch [⟨"a", "b", "2025-01-03", "", "v"⟩]] {"s_t_2025-01-02"}
      [⟨"s", "t", "2025-01-02", "", "u"⟩] (by decide)).1,
    (C1_amended ⟨{}, none, false⟩
      [pureFetch [⟨"s", "t", "2025-01-02", "", "u"⟩]]
      [pureFetch [⟨"c", "d", "2025-01-04", "", "w"⟩]] {"s_t_2025-01-02"}
      [⟨"s", "t", "2025-01-02", "", "u"⟩] (by decide)).2
      [.ok ⟨"a", "b", "2025-01-03", "", "v"⟩] []
      {"a_b_2025-01-03", "s_t_2025-01-02"}
      [⟨"a", "b", "2025-01-03", "", "v"⟩] (by decide)⟩

/-- C2, counterexample: `WeixinPaySource.get_announcements` raises past its
boundary both on a network error in a sub-request and on a 200 response
whose body is not valid JSON, instead of returning an empty sequence. -/
theorem C2_counterexample :
    weixinGet .netError (.response 200 (some (some 0, some []))) =
        .error () ∧
      weixinGet (.response 200 none) (.response 200 (some (some 0, some []))) =
        .error () :=
  ⟨rfl, rfl⟩

/-- C2 (amended): the TencentCloud and Yeepay adapters never raise past
their boundary for ordinary failures (network error and non-200 status yield
an empty sequence); the WeixinPay adapter returns the successful
sub-request's items when the other sub-request merely returns a non-200
status, but a raising GET or a malformed 200 body propagates out of it. -/
theorem C2_amended :
    (tencentGet .netError = [] ∧ yeepayGet .netError = []) ∧
      (∀ (s : Nat) (rows : List HtmlRow), s ≠ 200 →
        tencentGet (.response s rows) = [] ∧
          yeepayGet (.response s rows) = []) ∧
      (∀ (s1 : Nat) (b1 : WxBody) (l2 : List WxItem), s1 ≠ 200 →
        weixinGet (.response s1 b1) (.response 200 (some (some 0, some l2))) =
          .ok l2) ∧
      (∀ (s2 : Nat) (b2 : WxBody) (l1 : List WxItem), s2 ≠ 200 →
        weixinGet (.response 200 (some (some 0, some l1))) (.response s2 b2) =
          .ok l1) := by
  refine ⟨⟨rfl, rfl⟩, ?_, ?_, ?_⟩
  · intro s rows hs
    constructor <;> simp [tencentGet, yeepayGet, hs]
  · intro s1 b1 l2 hs
    simp [weixinGet, wxHandle, hs]
  · intro s2 b2 l1 hs
    simp [weixinGet, wxHandle, hs]

/-- Witness for C2 (amended): a 500 from TencentCloud yields an empty list;
a 404 on WeixinPay's first sub-request still yields the second sub-request's
(empty) list without raising. -/
theorem C2_witness :
    tencentGet (.response 500 []) = [] ∧
      weixinGet (.response 404 none) (.response 200 (some (some 0, some []))) =
        .ok [] :=
  ⟨(C2_amended.2.1 500 [] (by decide)).1,
    C2_amended.2.2.1 404 none [] (by decide)⟩

/-- C3, counterexample: the `_` separator collides with legitimate content —
two announcements with different (source, title) pairs produce the same
identity key, so equal keys do NOT imply equal (source, title, date)
triples. -/
theorem C3_counterexample :
    itemKey ⟨"pay_x", "t", "2025-01-01", "", ""⟩ =
        itemKey ⟨"pay", "x_t", "2025-01-01", "", ""⟩ ∧
      (⟨"pay_x", "t", "2025-01-01", "", ""⟩ : Item).title ≠
        (⟨"pay", "x_t", "2025-01-01", "", ""⟩ : Item).title := by
  exact ⟨rfl, by decide⟩

/-- C3 (amended): equal (source, title, date) triples always yield equal
identity keys, and the key is independent of the time field; the converse
direction of the claimed equivalence fails when a field contains the `_`
separator (see the counterexample). -/
theorem C3_amended (A B : Item) (hs : A.source = B.source)
    (ht : A.title = B.title) (hd : A.date = B.date) :
    itemKey A = itemKey B ∧
      ∀ t : String, itemKey { A with time := t } = itemKey A := by
  refine ⟨?_, fun t => rfl⟩
  simp [itemKey, hs, ht, hd]

/-- Witness for C3 (amended): two announcements equal on (source, title,
date) but with different times and urls share one identity key. -/
theorem C3_witness :
    itemKey ⟨"s", "t", "2025-01-01", "10:00:00", "u"⟩ =
      itemKey ⟨"s", "t", "2025-01-01", "", "v"⟩ :=
  (C3_amended ⟨"s", "t", "2025-01-01", "10:00:00", "u"⟩
    ⟨"s", "t", "2025-01-01", "", "v"⟩ rfl rfl rfl).1

/-- C9, counterexample: `TencentCloudSource.get_announcements` can itself
produce a raw item whose published-time text strips to the empty string (the
selector only checks that the time element exists), and on that item
`format_notification` raises (`date_time[0]` on an empty split) instead of
degrading. -/
theorem C9_counterexample :
    tencentGet (.response 200
        [⟨some ⟨"维护公告", some "/announce/detail/123"⟩, some " "⟩]) =
        [⟨"维护公告", "123", ""⟩] ∧
      tencentFormat ⟨"维护公告", "123", ""⟩ = .error () := by
  exact ⟨by decide, rfl⟩

/-- C9 (amended): for the HTML adapters, `format_notification` succeeds on
every raw item whose published-time text contains at least one
whitespace-separated token: with a lone date token the time field degrades
to the empty string, and with a second token that token becomes the time;
it fails only when the published-time text is empty or whitespace-only. -/
theorem C9_amended :
    (∀ (it : TcItem) (ds : String), pySplit it.beginTime = [ds] →
        tencentFormat it = .ok ⟨"腾讯云", it.title, ds, "",
          "https://cloud.tencent.com/announce/detail/" ++ it.announceId⟩) ∧
      (∀ (it : TcItem) (ds ts : String) (rest : List String),
        pySplit it.beginTime = ds :: ts :: rest →
        tencentFormat it = .ok ⟨"腾讯云", it.title, ds, ts,
          "https://cloud.tencent.com/announce/detail/" ++ it.announceId⟩) ∧
      (∀ (it : YpItem) (ds : String), pySplit it.pubTime = [ds] →
        yeepayFormat it = .ok ⟨"易宝支付", it.title, ds, "",
          "https://www.yeepay.com/notice-detail/" ++ it.noticeId⟩) ∧
      (∀ (it : YpItem) (ds ts : String) (rest : List String),
        pySplit it.pubTime = ds :: ts :: rest →
        yeepayFormat it = .ok ⟨"易宝支付", it.title, ds, ts,
          "https://www.yeepay.com/notice-detail/" ++ it.noticeId⟩) := by
  refine ⟨?_, ?_, ?_, ?_⟩
  · intro it ds h; simp [tencentFormat, h]
  · intro it ds ts rest h; simp [tencentFormat, h]
  · intro it ds h; simp [yeepayFormat, h]
  · intro it ds ts rest h; simp [yeepayFormat, h]

/-- Witness for C9 (amended): a date-only Tencent item degrades its time to
`""`; a date-plus-time Yeepay item keeps its clock time. -/
theorem C9_witness :
    tencentFormat ⟨"t", "1", "2025-01-10"⟩ =
        .ok ⟨"腾讯云", "t", "2025-01-10", "",
          "https://cloud.tencent.com/announce/detail/" ++ "1"⟩ ∧
      yeepayFormat ⟨"t", "2", "2025-03-04 08:00:00"⟩ =
        .ok ⟨"易宝支付", "t", "2025-03-04", "08:00:00",
          "https://www.yeepay.com/notice-detail/" ++ "2"⟩ :=
  ⟨C9_amended.1 ⟨"t", "1", "2025-01-10"⟩ "2025-01-10" (by decide),
    C9_amended.2.2.2 ⟨"t", "2", "2025-03-04 08:00:00"⟩ "2025-03-04" "08:00:00"
      [] (by decide)⟩

/-- C4: in NORMAL mode, the very first poll cycle of a fresh monitor (empty
ledger, `is_first_run` set) sends zero notifications, and for N distinct
announcements (N distinct identity keys) across all adapters the ledger ends
the cycle with exactly N keys; the cycle completes without error and
transitions out of the first run. -/
theorem C4_first_cycle_baseline (srcs : List (List Item))
    (hparse : ∀ y ∈ srcs.flatten, (parseDate y.date).isSome)
    (hnd : (srcs.flatten.map itemKey).Nodup) :
    (check_updates ⟨{}, none, true⟩ (srcs.map pureFetch)).2.1 = [] ∧
      (check_updates ⟨{}, none, true⟩ (srcs.map pureFetch)).1.last_items.card =
        srcs.flatten.length ∧
      (check_updates ⟨{}, none, true⟩ (srcs.map pureFetch)).1.is_first_run =
        false ∧
      (check_updates ⟨{}, none, true⟩ (srcs.map pureFetch)).2.2 = false := by
  have hrs := runSources_first_normal {} srcs hparse
  rw [check_updates_ok ⟨{}, none, true⟩ _ _ [] hrs]
  refine ⟨rfl, ?_, rfl, rfl⟩
  have hc := card_keysFold {} srcs.flatten hnd (by simp)
  simpa using hc

/-- A concrete announcement used in the witnesses below. -/
def itA : Item := ⟨"s", "t", "2025-01-02", "", "u"⟩

/-- A concrete announcement used in the witnesses below. -/
def itB : Item := ⟨"a", "b", "2025-01-03", "", "v"⟩

/-- A concrete announcement used in the witnesses below. -/
def itC : Item := ⟨"s", "t2", "2025-01-05", "", "w"⟩

/-- Witness for C4: two adapters, one fresh announcement each, distinct
keys: no notification, two ledger keys, steady state reached. -/
theorem C4_witness :
    (check_updates ⟨{}, none, true⟩ ([[itA], [itB]].map pureFetch)).2.1 = [] ∧
      (check_updates ⟨{}, none, true⟩
        ([[itA], [itB]].map pureFetch)).1.last_items.card =
        ([[itA], [itB]] : List (List Item)).flatten.length ∧
      (check_updates ⟨{}, none, true⟩
        ([[itA], [itB]].map pureFetch)).1.is_first_run = false ∧
      (check_updates ⟨{}, none, true⟩ ([[itA], [itB]].map pureFetch)).2.2 =
        false :=
  C4_first_cycle_baseline [[itA], [itB]] (by decide) (by decide)

/-- C5: in NORMAL mode in steady state, a cycle whose adapters return the
already-seen baseline items plus exactly one item with a new identity key
notifies exactly that one item, and the ledger grows by exactly that one
key. -/
theorem C5_single_new_item (L : Finset String) (ss1 ss2 : List (List Item))
    (l1 l2 : List Item) (x : Item)
    (hb : ∀ y ∈ ss1.flatten ++ (l1 ++ l2) ++ ss2.flatten,
      itemKey y ∈ L ∧ (parseDate y.date).isSome)
    (hxd : (parseDate x.date).isSome) (hxk : itemKey x ∉ L) :
    (check_updates ⟨L, none, false⟩
        ((ss1 ++ (l1 ++ x :: l2) :: ss2).map pureFetch)).2.1 = [x] ∧
      (check_updates ⟨L, none, false⟩
        ((ss1 ++ (l1 ++ x :: l2) :: ss2).map pureFetch)).1.last_items =
        insert (itemKey x) L ∧
      (check_updates ⟨L, none, false⟩
        ((ss1 ++ (l1 ++ x :: l2) :: ss2).map pureFetch)).1.last_items.card =
        L.card + 1 ∧
      (check_updates ⟨L, none, false⟩
        ((ss1 ++ (l1 ++ x :: l2) :: ss2).map pureFetch)).2.2 = false := by
  obtain ⟨dx, hdx⟩ := Option.isSome_iff_exists.mp hxd
  have hl1 : ∀ y ∈ l1, itemKey y ∈ L ∧ (parseDate y.date).isSome :=
    fun y hy => hb y (by simp [hy])
  have hl2 : ∀ y ∈ l2, itemKey y ∈ L ∧ (parseDate y.date).isSome :=
    fun y hy => hb y (by simp [hy])
  have hss1 : ∀ l ∈ ss1, ∀ y ∈ l,
      itemKey y ∈ L ∧ (parseDate y.date).isSome :=
    fun l hl y hy => hb y (by
      simp only [List.mem_append]
      exact Or.inl (Or.inl (List.mem_flatten.mpr ⟨l, hl, hy⟩)))
  have hss2 : ∀ l ∈ ss2, ∀ y ∈ l,
      itemKey y ∈ insert (itemKey x) L ∧ (parseDate y.date).isSome := by
    intro l hl y hy
    have := hb y (by
      simp only [List.mem_append]
      exact Or.inr (List.mem_flatten.mpr ⟨l, hl, hy⟩))
    exact ⟨Finset.mem_insert_of_mem this.1, this.2⟩
  have hmid : runItems none false L ((l1 ++ x :: l2).map .ok) =
      (insert (itemKey x) L, [x], false) := by
    rw [List.map_append, runItems_seen_prefix false L l1 _ hl1]
    simp only [List.map_cons, runItems, runItem_new_normal L x dx hdx hxk]
    rw [runItems_seen false (insert (itemKey x) L) l2
      (fun y hy => ⟨Finset.mem_insert_of_mem (hl2 y hy).1, (hl2 y hy).2⟩)]
    simp
  have hrs : runSources none false L
      ((ss1 ++ (l1 ++ x :: l2) :: ss2).map pureFetch) =
      (insert (itemKey x) L, [x], false) := by
    rw [List.map_append, runSources_seen_prefix false L ss1 _ hss1,
      List.map_cons]
    show runSources none false L (pureFetch (l1 ++ x :: l2) :: _) = _
    simp only [runSources, pureFetch, hmid]
    rw [runSources_seen false (insert (itemKey x) L) ss2 hss2]
    simp
  rw [check_updates_ok ⟨L, none, false⟩ _ _ _ hrs]
  exact ⟨rfl, rfl, by simp [Finset.card_insert_of_not_mem hxk], rfl⟩

/-- Witness for C5: ledger holding one baseline key, the adapter returns the
baseline item plus one new item: exactly one notification, ledger grows from
one key to two. -/
theorem C5_witness :
    (check_updates ⟨{"s_t_2025-01-02"}, none, false⟩
        (([] ++ ([itA] ++ itC :: []) :: []).map pureFetch)).2.1 = [itC] ∧
      (check_updates ⟨{"s_t_2025-01-02"}, none, false⟩
        (([] ++ ([itA] ++ itC :: []) :: []).map pureFetch)).1.last_items =
        insert (itemKey itC) {"s_t_2025-01-02"} ∧
      (check_updates ⟨{"s_t_2025-01-02"}, none, false⟩
        (([] ++ ([itA] ++ itC :: []) :: []).map pureFetch)).1.last_items.card =
        ({"s_t_2025-01-02"} : Finset String).card + 1 ∧
      (check_updates ⟨{"s_t_2025-01-02"}, none, false⟩
        (([] ++ ([itA] ++ itC :: []) :: []).map pureFetch)).2.2 = false :=
  C5_single_new_item {"s_t_2025-01-02"} [] [] [itA] [] itC (by decide)
    (by decide) (by decide)

/-- C6: in NORMAL mode in steady state, re-delivering a raw-item set all of
whose identity keys are already in the ledger produces zero notifications
and leaves the ledger unchanged. -/
theorem C6_redelivery_noop (L : Finset String) (srcs : List (List Item))
    (h : ∀ y ∈ srcs.flatten, itemKey y ∈ L ∧ (parseDate y.date).isSome) :
    (check_updates ⟨L, none, false⟩ (srcs.map pureFetch)).2.1 = [] ∧
      (check_updates ⟨L, none, false⟩ (srcs.map pureFetch)).1.last_items = L ∧
      (check_updates ⟨L, none, false⟩ (srcs.map pureFetch)).2.2 = false := by
  have hrs : runSources none false L (srcs.map pureFetch) = (L, [], false) :=
    runSources_seen false L srcs
      (fun l hl y hy => h y (List.mem_flatten.mpr ⟨l, hl, hy⟩))
  rw [check_updates_ok ⟨L, none, false⟩ _ _ _ hrs]
  exact ⟨rfl, rfl, rfl⟩

/-- Witness for C6: re-delivering the single already-seen item notifies
nothing and keeps the one-key ledger. -/
theorem C6_witness :
    (check_updates ⟨{"s_t_2025-01-02"}, none, false⟩
        ([[itA]].map pureFetch)).2.1 = [] ∧
      (check_updates ⟨{"s_t_2025-01-02"}, none, false⟩
        ([[itA]].map pureFetch)).1.last_items = {"s_t_2025-01-02"} ∧
      (check_updates ⟨{"s_t_2025-01-02"}, none, false⟩
        ([[itA]].map pureFetch)).2.2 = false :=
  C6_redelivery_noop {"s_t_2025-01-02"} [[itA]] (by decide)

/-- C7: with a DEBUG cutoff configured, an announcement dated strictly
before the cutoff is never notified in any cycle of any run; and in steady
state an on-or-after-cutoff announcement first seen now (baseline items
aside) is notified in that cycle and not again when re-delivered. -/
theorem C7_debug_cutoff (c : Date) (st : MonitorState) (x y : Item)
    (dx dy : Date) (hdbg : st.debug_time = some c)
    (hsteady : st.is_first_run = false) (hdx : parseDate x.date = some dx)
    (hxlt : Date.le c dx = false) (hdy : parseDate y.date = some dy)
    (hyge : Date.le c dy = true) (hyk : itemKey y ∉ st.last_items) :
    (∀ (st2 : MonitorState) (cs : List (List SourceFetch)),
        st2.debug_time = some c → ∀ p ∈ (runCycles st2 cs).2, x ∉ p.1) ∧
      (check_updates st [pureFetch [x, y]]).2.1 = [y] ∧
      (check_updates (check_updates st [pureFetch [x, y]]).1
        [pureFetch [x, y]]).2.1 = [] := by
  have hitems1 : runItems (some c) false st.last_items [.ok x, .ok y] =
      (insert (itemKey y) st.last_items, [y], false) := by
    simp [runItems, runItem_debug_before c false st.last_items x dx hdx hxlt,
      runItem_debug_new c st.last_items y dy hdy hyge hyk]
  have hrs1 : runSources st.debug_time st.is_first_run st.last_items
      [pureFetch [x, y]] = (insert (itemKey y) st.last_items, [y], false) := by
    rw [hdbg, hsteady]
    simp [runSources, pureFetch, hitems1]
  have hcu1 := check_updates_ok st [pureFetch [x, y]] _ _ hrs1
  have hmem : itemKey y ∈ insert (itemKey y) st.last_items :=
    Finset.mem_insert_self _ _
  have hitems2 : runItems (some c) false (insert (itemKey y) st.last_items)
      [.ok x, .ok y] = (insert (itemKey y) st.last_items, [], false) := by
    simp [runItems,
      runItem_debug_before c false (insert (itemKey y) st.last_items) x dx hdx
        hxlt,
      runItem_debug_seen c (insert (itemKey y) st.last_items) y dy hdy hyge
        hmem]
  have hrs2 : runSources
      ({ st with
          last_items := insert (itemKey y) st.last_items,
          is_first_run := false } : MonitorState).debug_time
      ({ st with
          last_items := insert (itemKey y) st.last_items,
          is_first_run := false } : MonitorState).is_first_run
      ({ st with
          last_items := insert (itemKey y) st.last_items,
          is_first_run := false } : MonitorState).last_items
      [pureFetch [x, y]] = (insert (itemKey y) st.last_items, [], false) := by
    show runSources st.debug_time false (insert (itemKey y) st.last_items)
      [pureFetch [x, y]] = _
    rw [hdbg]
    simp [runSources, pureFetch, hitems2]
  have hcu2 := check_updates_ok
    ({ st with
        last_items := insert (itemKey y) st.last_items,
        is_first_run := false }) [pureFetch [x, y]] _ _ hrs2
  refine ⟨?_, ?_, ?_⟩
  · intro st2 cs h2 p hp hx
    obtain ⟨d, hd, hle⟩ := runCycles_debug_notify_ge c cs st2 h2 p hp x hx
    rw [hdx] at hd
    injection hd with hd
    rw [← hd] at hle
    rw [hxlt] at hle
    exact Bool.false_ne_true hle
  · rw [hcu1]
  · rw [hcu1, hcu2]

/-- A concrete before-cutoff announcement for the C7 witness. -/
def itOld : Item := ⟨"s", "old", "2025-01-10", "", "u"⟩

/-- A concrete on-or-after-cutoff announcement for the C7 witness. -/
def itNew : Item := ⟨"s", "new", "2025-01-20", "", "v"⟩

/-- Witness for C7, at the spec's own example dates (cutoff 2025-01-15,
items dated 2025-01-10 and 2025-01-20): the after-cutoff item is notified
exactly once across the two cycles, the before-cutoff item never. -/
theorem C7_witness :
    (check_updates ⟨{}, some ⟨2025, 1, 15⟩, false⟩
        [pureFetch [itOld, itNew]]).2.1 = [itNew] ∧
      (check_updates (check_updates ⟨{}, some ⟨2025, 1, 15⟩, false⟩
        [pureFetch [itOld, itNew]]).1 [pureFetch [itOld, itNew]]).2.1 = [] :=
  ⟨(C7_debug_cutoff ⟨2025, 1, 15⟩ ⟨{}, some ⟨2025, 1, 15⟩, false⟩ itOld itNew
      ⟨2025, 1, 10⟩ ⟨2025, 1, 20⟩ rfl rfl (by decide) (by decide) (by decide)
      (by decide) (by decide)).2.1,
    (C7_debug_cutoff ⟨2025, 1, 15⟩ ⟨{}, some ⟨2025, 1, 15⟩, false⟩ itOld itNew
      ⟨2025, 1, 10⟩ ⟨2025, 1, 20⟩ rfl rfl (by decide) (by decide) (by decide)
      (by decide) (by decide)).2.2⟩

/-- C8: a non-2xx webhook response to a detected-new announcement is logged
by `send_notification` after its single POST attempt (no retry) and
swallowed; independently of any delivery outcome the item's key is added to
the ledger by `check_updates`, the cycle completes without error, and the
item is never re-notified in a later cycle. -/
theorem C8_delivery_failure (ws : Nat) (t : String) (st : MonitorState)
    (x : Item) (d : Date) (hws : ¬(200 ≤ ws ∧ ws < 300))
    (hdbg : st.debug_time = none) (hsteady : st.is_first_run = false)
    (hd : parseDate x.date = some d) (hk : itemKey x ∉ st.last_items) :
    (send_notification ws t).1 = 1 ∧
      (send_notification ws t).2 = ["发送通知失败: " ++ t] ∧
      (check_updates st [pureFetch [x]]).2.1 = [x] ∧
      (check_updates st [pureFetch [x]]).2.2 = false ∧
      (check_updates st [pureFetch [x]]).1.last_items =
        insert (itemKey x) st.last_items ∧
      (check_updates (check_updates st [pureFetch [x]]).1
        [pureFetch [x]]).2.1 = [] := by
  have hws200 : ws ≠ 200 := by
    intro h
    exact hws ⟨by omega, by omega⟩
  have hitems1 : runItems none false st.last_items [.ok x] =
      (insert (itemKey x) st.last_items, [x], false) := by
    simp [runItems, runItem_new_normal st.last_items x d hd hk]
  have hrs1 : runSources st.debug_time st.is_first_run st.last_items
      [pureFetch [x]] = (insert (itemKey x) st.last_items, [x], false) := by
    rw [hdbg, hsteady]
    simp [runSources, pureFetch, hitems1]
  have hcu1 := check_updates_ok st [pureFetch [x]] _ _ hrs1
  have hmem : itemKey x ∈ insert (itemKey x) st.last_items :=
    Finset.mem_insert_self _ _
  have hitems2 : runItems none false (insert (itemKey x) st.last_items)
      [.ok x] = (insert (itemKey x) st.last_items, [], false) := by
    simp [runItems,
      runItem_seen_normal false (insert (itemKey x) st.last_items) x
        (Option.isSome_iff_exists.mpr ⟨d, hd⟩) hmem]
  have hrs2 : runSources
      ({ st with
          last_items := insert (itemKey x) st.last_items,
          is_first_run := false } : MonitorState).debug_time
      ({ st with
          last_items := insert (itemKey x) st.last_items,
          is_first_run := false } : MonitorState).is_first_run
      ({ st with
          last_items := insert (itemKey x) st.last_items,
          is_first_run := false } : MonitorState).last_items
      [pureFetch [x]] = (insert (itemKey x) st.last_items, [], false) := by
    show runSources st.debug_time false (insert (itemKey x) st.last_items)
      [pureFetch [x]] = _
    rw [hdbg]
    simp [runSources, pureFetch, hitems2]
  have hcu2 := check_updates_ok
    ({ st with
        last_items := insert (itemKey x) st.last_items,
        is_first_run := false }) [pureFetch [x]] _ _ hrs2
  refine ⟨rfl, by simp [send_notification, hws200], ?_, ?_, ?_, ?_⟩
  · rw [hcu1]
  · rw [hcu1]
  · rw [hcu1]
  · rw [hcu1, hcu2]

/-- Witness for C8: webhook answers 500: one POST, one failure log, the item
is notified once, its key is in the ledger, the cycle is error-free, and
re-delivery notifies nothing. -/
theorem C8_witness :
    (send_notification 500 "err").1 = 1 ∧
      (send_notification 500 "err").2 = ["发送通知失败: " ++ "err"] ∧
      (check_updates ⟨{}, none, false⟩ [pureFetch [itA]]).2.1 = [itA] ∧
      (check_updates ⟨{}, none, false⟩ [pureFetch [itA]]).2.2 = false ∧
      (check_updates ⟨{}, none, false⟩ [pureFetch [itA]]).1.last_items =
        insert (itemKey itA) {} ∧
      (check_updates (check_updates ⟨{}, none, false⟩ [pureFetch [itA]]).1
        [pureFetch [itA]]).2.1 = [] :=
  C8_delivery_failure 500 "err" ⟨{}, none, false⟩ itA ⟨2025, 1, 2⟩ (by decide)
    rfl rfl (by decide) (by decide)

/-- C10: while `is_first_run` is still set, a `check_updates` cycle never
notifies; the FIRST_RUN-to-STEADY_STATE transition of a cycle happens
exactly when no exception reached the cycle's top-level handler; and as
long as every cycle keeps erroring, the monitor stays in its first run and
no notification is ever sent. -/
theorem C10_first_run_transition (st : MonitorState) (fs : List SourceFetch)
    (cs : List (List SourceFetch)) (h : st.is_first_run = true) :
    (check_updates st fs).2.1 = [] ∧
      (check_updates st fs).1.is_first_run = (check_updates st fs).2.2 ∧
      ((∀ p ∈ (runCycles st cs).2, p.2 = true) →
        (runCycles st cs).1.is_first_run = true ∧
          ∀ p ∈ (runCycles st cs).2, p.1 = []) := by
  refine ⟨(check_updates_first st fs h).1, (check_updates_first st fs h).2, ?_⟩
  intro herr
  exact runCycles_first_all_errored cs st h herr

/-- Witness for C10: a first-run cycle whose only adapter raises sends no
notification and leaves the monitor in its first run. -/
theorem C10_witness :
    (check_updates ⟨{}, none, true⟩ [.error ()]).2.1 = [] ∧
      (check_updates ⟨{}, none, true⟩ [.error ()]).1.is_first_run =
        (check_updates ⟨{}, none, true⟩ [.error ()]).2.2 :=
  ⟨(C10_first_run_transition ⟨{}, none, true⟩ [.error ()] [] rfl).1,
    (C10_first_run_transition ⟨{}, none, true⟩ [.error ()] [] rfl).2.1⟩

end TPCM
